import Mathlib

/-!
Verification of the resumable phase pipeline of the `youtube_analysis`
repository, shallowly embedded from the Python source:

* `utils/retry_handler.py`   — `RetryHandler.retry_async`
* `utils/state_manager.py`   — `StateManager` (`get_state_path`, `save_state`,
  `add_error`)
* `workflow/graph.py`        — the pydantic-graph pipeline nodes
* `agents/info_extractor.py` — `extract_info` and its helpers

Conventions of the embedding:

* Python ints are `Nat`/`Int`; the float parameters `delay` and
  `backoff_factor` and all wait durations are modelled as exact rationals
  (`ℚ`), so backoff products are exact.
* A fallible async operation is a function `Nat → Except String α` giving,
  for each zero-indexed attempt, either the raised exception's text
  (`Except.error`) or the returned value (`Except.ok`).  That Python's
  `try/except` catches the exception is modelled by the wrapper being a
  total function.
* Side effects that the claims talk about (performed waits, operation
  invocations, `save_state` calls, which phase executors ran) are returned
  as explicit data alongside the result.
-/

namespace YTA

/-- Modelled from the spec: the `Error` value type of `models/schemas.py`
(absent from `src/`); spec §3: `{phase: string, message: string,
retry_count: integer}`, exactly the three fields constructed by
`RetryHandler.retry_async`. -/
structure Error where
  phase : String
  message : String
  retry_count : Nat
deriving DecidableEq, Repr

/-- Everything observable about one call of `RetryHandler.retry_async`:
`ret` is the Python return value — `some (result, error)` for a normal
return of the tuple, `none` for the bare `None` produced when the
`for attempt in range(max_retries + 1)` loop body never executes;
`calls` counts invocations of the wrapped operation; `waits` lists the
back-off sleep durations in the order they were performed. -/
structure RetryOutcome (α : Type) where
  ret : Option (Option α × Option Error)
  calls : Nat
  waits : List ℚ
deriving DecidableEq, Repr

/-- One iteration onwards of the `for attempt in range(max_retries + 1)`
loop of `RetryHandler.retry_async` (`utils/retry_handler.py` lines 32-55),
starting at attempt index `attempt` with `fuel` iterations left.  On
success it returns `(result, None)` at once; on an exception it builds the
`Error` for this attempt and, while `attempt < max_retries`, sleeps
`delay * backoff_factor ** attempt` and continues, otherwise returns
`(None, error)`.  Returns the `(result, error)` pair together with the
number of operation invocations and the waits performed. -/
def retryGo (func : Nat → Except String α) (max_retries : Nat)
    (delay backoff_factor : ℚ) (phase_name : String) :
    Nat → Nat → (Option α × Option Error) × Nat × List ℚ
  | _, 0 => ((none, none), 0, [])
  | attempt, fuel + 1 =>
    match func attempt with
    | Except.ok v => ((some v, none), 1, [])
    | Except.error msg =>
      if attempt < max_retries then
        let w := delay * backoff_factor ^ attempt
        let r := retryGo func max_retries delay backoff_factor phase_name (attempt + 1) fuel
        (r.1, r.2.1 + 1, w :: r.2.2)
      else
        ((none, some ⟨phase_name, msg, attempt⟩), 1, [])

/-- `RetryHandler.retry_async` (`utils/retry_handler.py` lines 15-55).
`max_retries` is a Python int, so it may be negative: `range(max_retries+1)`
then yields no iterations and the function falls off the end, returning the
bare `None` (modelled by `ret = none`). -/
def retry_async (func : Nat → Except String α) (max_retries : Int)
    (delay backoff_factor : ℚ) (phase_name : String) : RetryOutcome α :=
  let n := (max_retries + 1).toNat
  if n = 0 then ⟨none, 0, []⟩
  else
    let r := retryGo func max_retries.toNat delay backoff_factor phase_name 0 n
    ⟨some r.1, r.2.1, r.2.2⟩

/-! ## State store (`utils/state_manager.py`) and pipeline graph (`workflow/graph.py`) -/

/-- Completion status of a single phase.  The source stores the strings
`"pending"`, `"complete"`, `"failed"`; spec §3 fixes exactly this
three-valued enum. -/
inductive Status where
  | pending
  | complete
  | failed
deriving DecidableEq, Repr

/-- Modelled from the spec: the `completion_status` sub-record of the
`State` class of `models/schemas.py` (absent from `src/`); the four phase
fields are exactly the ones read and written by `workflow/graph.py` and
`StateManager.add_error`. -/
structure CompletionStatus where
  process_extraction : Status
  process_summarization : Status
  info_extraction : Status
  output_compilation : Status
deriving DecidableEq, Repr

/-- Modelled from the spec: the `State` record of `models/schemas.py`
(absent from `src/`); spec §3 lists identity, per-phase completion status,
interim results, error log, last-write timestamp and final output pointer.
Of `interim_results` only the `"errors"` key is modelled (`interim_errors`;
`none` models the key being absent), because it is the only key the
operations under verification touch.  `timestamp` is modelled as a
monotone counter standing in for the ISO `datetime.now()` string. -/
structure State where
  channel_id : String
  video_id : String
  completion_status : CompletionStatus
  interim_errors : Option (List Error)
  timestamp : Nat
  final_output_path : Option String
deriving DecidableEq, Repr

/-- `StateManager.get_state_path` (`utils/state_manager.py` lines 13-14):
`os.path.join(self.output_dir, f"{channel_id}_{video_id}_state.json")`,
with POSIX `os.path.join` on a plain relative directory name joining with
`"/"`. -/
def get_state_path (output_dir channel_id video_id : String) : String :=
  output_dir ++ "/" ++ channel_id ++ "_" ++ video_id ++ "_state.json"

/-- `StateManager.save_state` (`utils/state_manager.py` lines 31-42):
serializes the record to disk after refreshing `state.timestamp` to
`datetime.now()`.  The disk write is outside the model; the timestamp
refresh is modelled as a strict increment, so a saved state is never
equal to the unsaved one. -/
def save_state (s : State) : State :=
  { s with timestamp := s.timestamp + 1 }

/-- `StateManager.add_error` (`utils/state_manager.py` lines 44-65):
initializes `interim_results["errors"]` if absent, appends the error,
unconditionally sets the completion status of the phase named in the
error to `"failed"` (for the four known phase names, via the `if/elif`
chain), and saves the state. -/
def add_error (s : State) (e : Error) : State :=
  let errs := s.interim_errors.getD []
  let s1 := { s with interim_errors := some (errs ++ [e]) }
  let cs := s1.completion_status
  let cs2 :=
    if e.phase = "process_extraction" then { cs with process_extraction := Status.failed }
    else if e.phase = "process_summarization" then { cs with process_summarization := Status.failed }
    else if e.phase = "info_extraction" then { cs with info_extraction := Status.failed }
    else if e.phase = "output_compilation" then { cs with output_compilation := Status.failed }
    else cs
  save_state { s1 with completion_status := cs2 }

/-- The non-initial nodes of the pipeline graph of `workflow/graph.py`. -/
inductive Node where
  | extractProcesses
  | summarizeProcesses
  | extractInfo
  | compileOutput
deriving DecidableEq, Repr

/-- The dispatch of `InitializeNode.run` (`workflow/graph.py` lines 18-31):
it inspects the completion status of the first three phases (never
`output_compilation`) and returns the first node whose phase is not
`"complete"`, falling through to `CompileOutputNode` when all three are. -/
def initNextNode (s : State) : Node :=
  if s.completion_status.process_extraction = Status.complete then
    if s.completion_status.process_summarization = Status.complete then
      if s.completion_status.info_extraction = Status.complete then
        Node.compileOutput
      else
        Node.extractInfo
    else
      Node.summarizeProcesses
  else
    Node.extractProcesses

/-- `ExtractProcessesNode.run` (`workflow/graph.py` lines 33-44) state
update: sets `process_extraction` to `"complete"` and saves. -/
def stepExtractProcesses (s : State) : State :=
  save_state { s with
    completion_status := { s.completion_status with process_extraction := Status.complete } }

/-- `SummarizeProcessesNode.run` (`workflow/graph.py` lines 46-57) state
update: sets `process_summarization` to `"complete"` and saves. -/
def stepSummarizeProcesses (s : State) : State :=
  save_state { s with
    completion_status := { s.completion_status with process_summarization := Status.complete } }

/-- `ExtractInfoNode.run` (`workflow/graph.py` lines 59-70) state update:
sets `info_extraction` to `"complete"` and saves. -/
def stepExtractInfo (s : State) : State :=
  save_state { s with
    completion_status := { s.completion_status with info_extraction := Status.complete } }

/-- `CompileOutputNode.run` (`workflow/graph.py` lines 72-87) state update:
sets `output_compilation` to `"complete"`, sets `final_output_path` to
`f"output/{channel_id}_{video_id}_analysis.json"` and saves.  The node
always runs its body; it never consults the stored status or the stored
final output. -/
def stepCompileOutput (s : State) : State :=
  save_state { s with
    completion_status := { s.completion_status with output_compilation := Status.complete },
    final_output_path :=
      some ("output/" ++ s.channel_id ++ "_" ++ s.video_id ++ "_analysis.json") }

/-- Observable outcome of one engine run: the final persisted state, the
value returned through `End(...)` (`CompileOutputNode.run` returns the
freshly built `final_output = {}`, modelled as the empty association
list), the number of `save_state` calls, and the phase executors that
actually ran, in order. -/
structure EngineRun where
  finalState : State
  finalOutput : List (String × String)
  saves : Nat
  executed : List Node
deriving Repr

/-- Running the graph from `CompileOutputNode`. -/
def runCompileOutput (s : State) : EngineRun :=
  ⟨stepCompileOutput s, [], 1, [Node.compileOutput]⟩

/-- Running the graph from `ExtractInfoNode` (its `run` returns
`CompileOutputNode()`, which the graph then runs). -/
def runExtractInfo (s : State) : EngineRun :=
  let r := runCompileOutput (stepExtractInfo s)
  ⟨r.finalState, r.finalOutput, r.saves + 1, Node.extractInfo :: r.executed⟩

/-- Running the graph from `SummarizeProcessesNode`. -/
def runSummarizeProcesses (s : State) : EngineRun :=
  let r := runExtractInfo (stepSummarizeProcesses s)
  ⟨r.finalState, r.finalOutput, r.saves + 1, Node.summarizeProcesses :: r.executed⟩

/-- Running the graph from `ExtractProcessesNode`. -/
def runExtractProcesses (s : State) : EngineRun :=
  let r := runSummarizeProcesses (stepExtractProcesses s)
  ⟨r.finalState, r.finalOutput, r.saves + 1, Node.extractProcesses :: r.executed⟩

/-- One engine invocation on a loaded record: `InitializeNode.run` picks
the entry node from the completion status and the graph then runs the
chain of stub nodes from there (`workflow/graph.py`; each node
unconditionally performs its body and proceeds to its successor). -/
def runPipeline (s : State) : EngineRun :=
  match initNextNode s with
  | Node.extractProcesses => runExtractProcesses s
  | Node.summarizeProcesses => runSummarizeProcesses s
  | Node.extractInfo => runExtractInfo s
  | Node.compileOutput => runCompileOutput s

/-- A state-mutating operation preserves `complete` statuses: any phase
that is `complete` before the operation is still `complete` after it. -/
def preservesComplete (f : State → State) : Prop :=
  ∀ s : State,
    (s.completion_status.process_extraction = Status.complete →
      (f s).completion_status.process_extraction = Status.complete) ∧
    (s.completion_status.process_summarization = Status.complete →
      (f s).completion_status.process_summarization = Status.complete) ∧
    (s.completion_status.info_extraction = Status.complete →
      (f s).completion_status.info_extraction = Status.complete) ∧
    (s.completion_status.output_compilation = Status.complete →
      (f s).completion_status.output_compilation = Status.complete)

/-- A record whose four phases are all `"complete"`, with a stored final
output pointer; the concrete instance used by the C1 and C2 theorems. -/
def sAllComplete : State :=
  { channel_id := "c", video_id := "v",
    completion_status :=
      ⟨Status.complete, Status.complete, Status.complete, Status.complete⟩,
    interim_errors := some [],
    timestamp := 0,
    final_output_path := some "output/c_v_analysis.json" }

/-! ## JSON values and a model of `json.loads` (Python stdlib, as used by
`agents/info_extractor.py`) -/

/-- A parsed JSON value.  Numbers keep their raw lexical token, which
avoids modelling float semantics; no claim inspects a numeric value. -/
inductive JValue where
  | jnull
  | jbool (b : Bool)
  | jnum (raw : String)
  | jstr (s : String)
  | jarr (elems : List JValue)
  | jobj (fields : List (String × JValue))
deriving Repr

/-- Whitespace as skipped by the JSON grammar. -/
def isJsonWs (c : Char) : Bool :=
  c = ' ' || c = '\n' || c = '\t' || c = '\r'

/-- Drop leading JSON whitespace. -/
def skipWs : List Char → List Char
  | [] => []
  | c :: cs => if isJsonWs c then skipWs cs else c :: cs

/-- Decimal digit test, on the code point. -/
def isDigitCh (c : Char) : Bool :=
  let n := c.toNat
  48 ≤ n && n ≤ 57

/-- Split off a maximal run of decimal digits. -/
def takeDigits : List Char → List Char × List Char
  | [] => ([], [])
  | c :: cs =>
    if isDigitCh c then
      let r := takeDigits cs
      (c :: r.1, r.2)
    else ([], c :: cs)

/-- Value of a hexadecimal digit, if any, computed on the code point:
`0`-`9` are 48-57, `A`-`F` are 65-70, `a`-`f` are 97-102. -/
def hexVal (c : Char) : Option Nat :=
  let n := c.toNat
  if 48 ≤ n && n ≤ 57 then some (n - 48)
  else if 65 ≤ n && n ≤ 70 then some (n - 55)
  else if 97 ≤ n && n ≤ 102 then some (n - 87)
  else none

/-- Body of a JSON string after the opening quote: returns the decoded
characters and the input following the closing quote.  Supports the JSON
escapes; `fuel` bounds the recursion (callers pass the input length). -/
def parseStringBody : Nat → List Char → Option (List Char × List Char)
  | 0, _ => none
  | _, [] => none
  | fuel + 1, c :: cs =>
    if c = '"' then some ([], cs)
    else if c = '\\' then
      match cs with
      | [] => none
      | e :: cs2 =>
        let simpleEsc : Option Char :=
          if e = '"' then some '"'
          else if e = '\\' then some '\\'
          else if e = '/' then some '/'
          else if e = 'n' then some '\n'
          else if e = 't' then some '\t'
          else if e = 'r' then some '\r'
          else if e = 'b' then some (Char.ofNat 8)
          else if e = 'f' then some (Char.ofNat 12)
          else none
        match simpleEsc with
        | some ch =>
          (parseStringBody fuel cs2).map (fun p => (ch :: p.1, p.2))
        | none =>
          if e = 'u' then
            match cs2 with
            | h1 :: h2 :: h3 :: h4 :: cs3 =>
              match hexVal h1, hexVal h2, hexVal h3, hexVal h4 with
              | some a, some b, some c2, some d =>
                (parseStringBody fuel cs3).map
                  (fun p => (Char.ofNat (((a * 16 + b) * 16 + c2) * 16 + d) :: p.1, p.2))
              | _, _, _, _ => none
            | _ => none
          else none
    else (parseStringBody fuel cs).map (fun p => (c :: p.1, p.2))

/-- A JSON number token: `-? digits (. digits)? ([eE] [+-]? digits)?`.
(The leading-zero restriction of strict JSON is not enforced; no claim
depends on it.)  Returns the raw token and the rest of the input. -/
def parseNumber (l : List Char) : Option (List Char × List Char) :=
  let signRest : List Char × List Char :=
    match l with
    | '-' :: r => (['-'], r)
    | _ => ([], l)
  let ds := takeDigits signRest.2
  if ds.1 = [] then none
  else
    let fracRest : Option (List Char × List Char) :=
      match ds.2 with
      | '.' :: r =>
        let fd := takeDigits r
        if fd.1 = [] then none else some ('.' :: fd.1, fd.2)
      | _ => some ([], ds.2)
    match fracRest with
    | none => none
    | some fr =>
      let expRest : Option (List Char × List Char) :=
        match fr.2 with
        | 'e' :: r =>
          match r with
          | '+' :: r2 =>
            let ed := takeDigits r2
            if ed.1 = [] then none else some ('e' :: '+' :: ed.1, ed.2)
          | '-' :: r2 =>
            let ed := takeDigits r2
            if ed.1 = [] then none else some ('e' :: '-' :: ed.1, ed.2)
          | _ =>
            let ed := takeDigits r
            if ed.1 = [] then none else some ('e' :: ed.1, ed.2)
        | 'E' :: r =>
          match r with
          | '+' :: r2 =>
            let ed := takeDigits r2
            if ed.1 = [] then none else some ('E' :: '+' :: ed.1, ed.2)
          | '-' :: r2 =>
            let ed := takeDigits r2
            if ed.1 = [] then none else some ('E' :: '-' :: ed.1, ed.2)
          | _ =>
            let ed := takeDigits r
            if ed.1 = [] then none else some ('E' :: ed.1, ed.2)
        | _ => some ([], fr.2)
      match expRest with
      | none => none
      | some ex => some (signRest.1 ++ ds.1 ++ fr.1 ++ ex.1, ex.2)

mutual

/-- Recursive-descent JSON value parser; `fuel` bounds nesting (callers
pass `2 * length + 2`, sufficient because every two nested calls consume
at least one character). -/
def parseValue : Nat → List Char → Option (JValue × List Char)
  | 0, _ => none
  | fuel + 1, l =>
    match skipWs l with
    | [] => none
    | '{' :: cs =>
      (match skipWs cs with
      | '}' :: rest => some (JValue.jobj [], rest)
      | cs2 => (parseFields fuel cs2).map (fun p => (JValue.jobj p.1, p.2)))
    | '[' :: cs =>
      (match skipWs cs with
      | ']' :: rest => some (JValue.jarr [], rest)
      | cs2 => (parseElems fuel cs2).map (fun p => (JValue.jarr p.1, p.2)))
    | '"' :: cs =>
      (parseStringBody (cs.length + 1) cs).map (fun p => (JValue.jstr (String.mk p.1), p.2))
    | 't' :: 'r' :: 'u' :: 'e' :: rest => some (JValue.jbool true, rest)
    | 'f' :: 'a' :: 'l' :: 's' :: 'e' :: rest => some (JValue.jbool false, rest)
    | 'n' :: 'u' :: 'l' :: 'l' :: rest => some (JValue.jnull, rest)
    | l2 => (parseNumber l2).map (fun p => (JValue.jnum (String.mk p.1), p.2))

/-- Comma-separated array elements up to the closing bracket. -/
def parseElems : Nat → List Char → Option (List JValue × List Char)
  | 0, _ => none
  | fuel + 1, l =>
    match parseValue fuel l with
    | none => none
    | some (v, r) =>
      match skipWs r with
      | ',' :: r2 => (parseElems fuel r2).map (fun p => (v :: p.1, p.2))
      | ']' :: r2 => some ([v], r2)
      | _ => none

/-- Comma-separated object members up to the closing brace. -/
def parseFields : Nat → List Char → Option (List (String × JValue) × List Char)
  | 0, _ => none
  | fuel + 1, l =>
    match skipWs l with
    | '"' :: cs =>
      (match parseStringBody (cs.length + 1) cs with
      | none => none
      | some (k, r) =>
        match skipWs r with
        | ':' :: r2 =>
          (match parseValue fuel r2 with
          | none => none
          | some (v, r3) =>
            match skipWs r3 with
            | ',' :: r4 => (parseFields fuel r4).map (fun p => ((String.mk k, v) :: p.1, p.2))
            | '}' :: r4 => some ([(String.mk k, v)], r4)
            | _ => none)
        | _ => none)
    | _ => none

end

/-- Model of Python `json.loads`: parse one JSON value and require only
trailing whitespace after it; any failure is `none` (a raised
`json.JSONDecodeError` in the source). -/
def jsonLoads (s : String) : Option JValue :=
  match parseValue (2 * s.data.length + 2) s.data with
  | some (v, rest) => if (skipWs rest).isEmpty then some v else none
  | none => none

/-! ## Python string primitives

Python strings are sequences of code points; `len`, slicing, `split` and
`strip` are modelled directly on the character list of the Lean string. -/

/-- Python `len(s)`: the number of code points. -/
def pyLen (s : String) : Nat := s.data.length

/-- Python `s[:n]`: the first `n` code points. -/
def pyTake (s : String) (n : Nat) : String := String.mk (s.data.take n)

/-- Splitter behind Python `s.split(sep)` for non-empty `sep`: scan left
to right, breaking at each non-overlapping occurrence of `sep`; `fuel`
bounds the recursion (callers pass the input length, sufficient because
every step consumes at least one character). -/
def splitCharsGo (sep : List Char) : Nat → List Char → List (List Char)
  | _, [] => [[]]
  | 0, l => [l]
  | fuel + 1, c :: cs =>
    if sep.isPrefixOf (c :: cs) then
      [] :: splitCharsGo sep fuel ((c :: cs).drop sep.length)
    else
      match splitCharsGo sep fuel cs with
      | [] => [[c]]
      | h :: t => (c :: h) :: t

/-- Python `s.split(sep)` for a non-empty separator. -/
def pySplit (s sep : String) : List String :=
  (splitCharsGo sep.data s.data.length s.data).map String.mk

/-- Whitespace stripped by Python `str.strip()`. -/
def isPySpace (c : Char) : Bool :=
  c = ' ' || c = '\t' || c = '\n' || c = '\r' || c = Char.ofNat 11 || c = Char.ofNat 12

/-- Python `s.strip()`. -/
def pyStrip (s : String) : String :=
  String.mk (((s.data.dropWhile isPySpace).reverse.dropWhile isPySpace).reverse)

/-! ## Extraction executor (`agents/info_extractor.py`) -/

/-- One transcript segment; only its `text` field is read
(`item.get("text", "")`). -/
structure TranscriptItem where
  text : String
deriving DecidableEq, Repr

/-- The parts of `video_metadata['video']` read by `extract_info`:
`title`, `description` and the pre-existing `tags` list.  Tags are typed
as strings, as the spec's data model prescribes. -/
structure VideoMeta where
  title : String
  description : String
  tags : List String
deriving DecidableEq, Repr

/-- The transcript-cap truncation of `extract_info`
(`agents/info_extractor.py` lines 19-21): if the concatenation exceeds
16000 characters, keep its first 16000 characters and append the `"..."`
truncation marker, otherwise leave it unchanged. -/
def truncateTranscript (s : String) : String :=
  if pyLen s > 16000 then pyTake s 16000 ++ "..." else s

/-- The tag merge of the successful-parse path
(`agents/info_extractor.py` lines 79-82): start from a copy of the
existing tags and append each keyword not already present. -/
def mergeTags (existing keywords : List String) : List String :=
  keywords.foldl (fun acc t => if t ∈ acc then acc else acc ++ [t]) existing

/-- Model of Python `list(set(xs))` (`agents/info_extractor.py` line 104):
the distinct elements of `xs`.  CPython's set iteration order is
unspecified; the model fixes first-occurrence order.  Theorems drawn from
it rely only on order-independent consequences (here: duplicates are
collapsed). -/
def pySetList (xs : List String) : List String :=
  xs.foldl (fun acc x => if x ∈ acc then acc else acc ++ [x]) []

/-- The heuristic fallback scan (`agents/info_extractor.py` lines 92-100):
for each line of the content containing the `**` emphasis marker, take
the span after the first marker (`line.split('**')[1]`), strip it, and
keep it when non-empty and longer than 2 characters. -/
def scanKeywords (content : String) : List String :=
  (pySplit content "\n").foldl
    (fun acc line =>
      let parts := pySplit line "**"
      if parts.length ≥ 2 then
        let possible := pyStrip (parts.getD 1 "")
        if possible ≠ "" ∧ pyLen possible > 2 then acc ++ [possible] else acc
      else acc)
    []

/-- Test `"```json" in content` (`agents/info_extractor.py` line 72). -/
def containsJsonFence (content : String) : Bool :=
  decide (2 ≤ (pySplit content "```json").length)

/-- The fenced-block extraction
`content.split("```json", 1)[1].split("```", 1)[0].strip()`
(`agents/info_extractor.py` line 73). -/
def fencedJson (content : String) : String :=
  match pySplit content "```json" with
  | [] => ""
  | _ :: rest =>
    let after := String.intercalate "```json" rest
    pyStrip ((pySplit after "```").headD "")

/-- Result dictionary of `extract_info`: `software` is the raw JSON value
taken from the response (`[]`, i.e. `JValue.jarr []`, on every fallback
path), `tags` the merged tag list, `error` the optional error string. -/
structure ExtractResult where
  software : JValue
  tags : List String
  error : Option String
deriving Repr

/-- Last-occurrence lookup, Python `dict` semantics for duplicate JSON
keys. -/
def dictGet (fields : List (String × JValue)) (k : String) : Option JValue :=
  fields.foldl (fun acc p => if p.1 = k then some p.2 else acc) none

/-- String elements of a JSON array (the `keywords` value); non-array
values and non-string elements are outside the model (the spec types tags
as strings). -/
def jStrElems : JValue → List String
  | JValue.jarr es =>
    es.filterMap (fun v => match v with | JValue.jstr s => some s | _ => none)
  | _ => []

/-- The representative message of a `json.JSONDecodeError`; the source
interpolates `str(je)` into `f"JSON parsing error: {str(je)}"`, so the
model renders the error with the fixed representative detail text
json.loads produces for garbage input.  Claims depend only on the message
being non-empty. -/
def jsonDecodeErrMsg : String :=
  "JSON parsing error: Expecting value"

/-- The message of the `AttributeError` raised (and caught by the outer
handler) when the parsed JSON is not an object and `.get` is called on
it. -/
def attributeErrMsg : String :=
  "object has no attribute get"

/-- Response parsing of `extract_info` (`agents/info_extractor.py` lines
71-106): extract the fenced JSON block if present, else parse the whole
content; on success merge `keywords` into the existing tags and return
`software` as-is; on `json.JSONDecodeError` run the line-scan heuristic
and return `list(set(existing_tags + keywords))` with an error message. -/
def parseResponse (existing_tags : List String) (content : String) : ExtractResult :=
  let json_str := if containsJsonFence content then fencedJson content else content
  match jsonLoads json_str with
  | some (JValue.jobj fields) =>
    let keywords := jStrElems ((dictGet fields "keywords").getD (JValue.jarr []))
    { software := (dictGet fields "software").getD (JValue.jarr []),
      tags := mergeTags existing_tags keywords,
      error := none }
  | some _ =>
    { software := JValue.jarr [], tags := existing_tags, error := some attributeErrMsg }
  | none =>
    { software := JValue.jarr [],
      tags := pySetList (existing_tags ++ scanKeywords content),
      error := some jsonDecodeErrMsg }

/-- `extract_info` (`agents/info_extractor.py` lines 13-114).  The
external inference call `_call_llm` is abstracted as `func`, giving for
each attempt either the exception text or the response, modelled by its
`result["message"]["content"]` string; the call goes through
`RetryHandler.retry_async` with `max_retries=2` and the default
`delay=1.0`, `backoff_factor=2.0` exactly as in the source.  The prompt
built on lines 28-48 is only passed to the external capability, so its
text is not modelled; its transcript ingredient (concatenation and
truncation, lines 19-21) is.  The `some (none, none)` and `none` retry
outcomes are unreachable for `max_retries = 2`; they map to the message
of the `TypeError` the source would raise and catch in its outer
handler. -/
def extract_info (transcript : List TranscriptItem) (video_metadata : VideoMeta)
    (func : Nat → Except String String) : ExtractResult :=
  let transcript_text :=
    truncateTranscript (String.intercalate " " (transcript.map TranscriptItem.text))
  let existing_tags := video_metadata.tags
  let r := retry_async func 2 1 2 "info_extraction"
  match r.ret with
  | some (_, some e) =>
    { software := JValue.jarr [], tags := existing_tags, error := some e.message }
  | some (some content, none) => parseResponse existing_tags content
  | some (none, none) =>
    { software := JValue.jarr [], tags := existing_tags,
      error := some "NoneType object is not subscriptable" }
  | none =>
    { software := JValue.jarr [], tags := existing_tags,
      error := some "NoneType object is not subscriptable" }

/-! ## Cooperative execution model for the backoff wait (claim C7)

`retry_async` is an `async def` run on a single-threaded cooperative
event loop (asyncio): control changes tasks only at suspension points.
`time.sleep` (the wait the source performs on line 52 of
`utils/retry_handler.py`) is a plain blocking call with no suspension
point inside, so the event loop cannot run any other task until it
returns; `await asyncio.sleep` would instead suspend the calling task
and re-enter the loop.  The model tags each wait with whether it blocks,
and the scheduler grants the other ready task a run-to-suspension
quantum during a suspending wait but nothing during a blocking one. -/

/-- An atomic step of a task as seen by the event loop: plain
computation, a wait of duration `d` (blocking = `time.sleep`,
non-blocking = `await asyncio.sleep`), or an `await` suspension point. -/
inductive AStep where
  | work
  | wait (blocking : Bool) (d : ℚ)
  | yieldPt
deriving Repr

/-- Scheduler events: a task (`tid = true` is the retry task) executed a
step, began a wait, or completed a wait. -/
inductive Ev where
  | step (tid : Bool) (s : AStep)
  | waitStart (tid : Bool) (blocking : Bool) (d : ℚ)
  | waitEnd (tid : Bool)
deriving Repr

/-- One run-to-suspension quantum of the task `tid`: it executes work
steps until it reaches a suspension point (an `await` or a wait of its
own), returning the emitted events and its remaining steps. -/
def quantum (tid : Bool) : List AStep → List Ev × List AStep
  | [] => ([], [])
  | AStep.work :: r =>
    let q := quantum tid r
    (Ev.step tid AStep.work :: q.1, q.2)
  | AStep.yieldPt :: r => ([Ev.step tid AStep.yieldPt], r)
  | AStep.wait b d :: r => ([], AStep.wait b d :: r)

/-- Single-threaded cooperative interleaving of two tasks.  The running
task keeps the thread through `work`; an `await` (`yieldPt`) hands
control to the other task; a blocking wait holds the thread for its whole
duration — `waitStart` is immediately followed by `waitEnd` with no
other event in between; a non-blocking wait suspends the caller, letting
the other task run a quantum before the wait completes. -/
def sched : Nat → List AStep → List AStep → Bool → List Ev
  | 0, _, _, _ => []
  | fuel + 1, a, b, true =>
    match a with
    | [] => sched fuel [] b false
    | AStep.work :: r => Ev.step true AStep.work :: sched fuel r b true
    | AStep.yieldPt :: r => Ev.step true AStep.yieldPt :: sched fuel r b false
    | AStep.wait true d :: r =>
      Ev.waitStart true true d :: Ev.waitEnd true :: sched fuel r b true
    | AStep.wait false d :: r =>
      let q := quantum false b
      Ev.waitStart true false d :: (q.1 ++ Ev.waitEnd true :: sched fuel r q.2 true)
  | fuel + 1, a, b, false =>
    match b with
    | [] => sched fuel a [] true
    | AStep.work :: r => Ev.step false AStep.work :: sched fuel a r false
    | AStep.yieldPt :: r => Ev.step false AStep.yieldPt :: sched fuel a r true
    | AStep.wait true d :: r =>
      Ev.waitStart false true d :: Ev.waitEnd false :: sched fuel a r false
    | AStep.wait false d :: r =>
      let q := quantum true a
      Ev.waitStart false false d :: (q.1 ++ Ev.waitEnd false :: sched fuel q.2 r false)

/-- Number of steps the other task (`tid = false`) executes before the
retry task's pending wait completes. -/
def countOtherUntilEnd : List Ev → Nat
  | [] => 0
  | Ev.waitEnd true :: _ => 0
  | Ev.step false _ :: rest => countOtherUntilEnd rest + 1
  | _ :: rest => countOtherUntilEnd rest

/-- Steps the other task executes during the retry task's first backoff
wait: locate the first `waitStart` of the retry task and count the other
task's steps up to the matching `waitEnd`. -/
def otherDuringFirstWait : List Ev → Nat
  | [] => 0
  | Ev.waitStart true _ _ :: rest => countOtherUntilEnd rest
  | _ :: rest => otherDuringFirstWait rest

/-- The step trace of one call of `RetryHandler.retry_async`
(`utils/retry_handler.py` lines 32-55) for an operation that raises
exactly on the attempts where `fails` is true: each attempt is an `await`
of the operation (`yieldPt`), and each failed non-final attempt is
followed by the backoff wait of `delay * backoff_factor ** attempt`
seconds.  `blockingSleep` records which primitive performs the wait: the
source calls `time.sleep` (blocking), so the source trace is
`retryTrace true …`; the spec's contract corresponds to
`retryTrace false …`. -/
def retryTrace (blockingSleep : Bool) (fails : Nat → Bool) (max_retries : Nat)
    (delay backoff_factor : ℚ) : Nat → Nat → List AStep
  | _, 0 => []
  | attempt, fuel + 1 =>
    AStep.yieldPt ::
      (if fails attempt then
        (if attempt < max_retries then
          AStep.wait blockingSleep (delay * backoff_factor ^ attempt) ::
            retryTrace blockingSleep fails max_retries delay backoff_factor (attempt + 1) fuel
        else [])
      else [])

/-- An unrelated concurrently scheduled task: plain work interleaved with
`await` points. -/
def otherTask : List AStep :=
  [AStep.work, AStep.yieldPt, AStep.work, AStep.yieldPt, AStep.work]

/-- A task trace none of whose waits is non-blocking: the shape of every
trace `retry_async` actually produces, since its only wait primitive is
`time.sleep`. -/
def onlyBlockingWaits (l : List AStep) : Prop :=
  ∀ d : ℚ, AStep.wait false d ∉ l

/-- A 20000-character string, the concrete oversized transcript
concatenation of the C8 witness. -/
def bigTranscript : String :=
  String.mk (List.replicate 20000 'a')

/-! ## Lemmas about the retry loop -/

/-- One-step unfolding of `retryGo`. -/
lemma retryGo_succ {α : Type} (func : Nat → Except String α) (m : Nat) (d b : ℚ)
    (p : String) (attempt fuel : Nat) :
    retryGo func m d b p attempt (fuel + 1) =
      match func attempt with
      | Except.ok v => ((some v, none), 1, [])
      | Except.error msg =>
        if attempt < m then
          ((retryGo func m d b p (attempt + 1) fuel).1,
            (retryGo func m d b p (attempt + 1) fuel).2.1 + 1,
            d * b ^ attempt :: (retryGo func m d b p (attempt + 1) fuel).2.2)
        else ((none, some ⟨p, msg, attempt⟩), 1, []) := rfl

/-- If every attempt raises, the loop runs through all its remaining
iterations, waits after each non-final one, and returns the error of the
final attempt. -/
lemma retryGo_allFail {α : Type} (func : Nat → Except String α) (msgs : Nat → String)
    (h : ∀ i, func i = Except.error (msgs i)) (m : Nat) (d b : ℚ) (p : String) :
    ∀ f a, a + f = m →
      retryGo func m d b p a (f + 1) =
        ((none, some ⟨p, msgs m, m⟩), f + 1, (List.range' a f).map (fun i => d * b ^ i)) := by
  intro f
  induction f with
  | zero =>
    intro a ha
    have haa : a = m := by omega
    subst haa
    simp [retryGo, h a]
  | succ f ih =>
    intro a ha
    have hlt : a < m := by omega
    have hrec := ih (a + 1) (by omega)
    have key : retryGo func m d b p a (f + 1 + 1) =
        ((retryGo func m d b p (a + 1) (f + 1)).1,
          (retryGo func m d b p (a + 1) (f + 1)).2.1 + 1,
          d * b ^ a :: (retryGo func m d b p (a + 1) (f + 1)).2.2) := by
      rw [retryGo_succ, h a]
      simp [hlt]
    rw [key, hrec]
    simp [List.range'_succ]

/-- If the first `j` remaining attempts raise and the next one succeeds,
the loop returns the success after `j + 1` invocations with the `j`
geometric waits in between. -/
lemma retryGo_eventualOk {α : Type} (func : Nat → Except String α) (msgs : Nat → String)
    (v : α) (m : Nat) (d b : ℚ) (p : String) :
    ∀ j a f, j ≤ f →
      (∀ i, i < j → func (a + i) = Except.error (msgs (a + i))) →
      func (a + j) = Except.ok v → a + j ≤ m →
      retryGo func m d b p a (f + 1) =
        ((some v, none), j + 1, (List.range' a j).map (fun i => d * b ^ i)) := by
  intro j
  induction j with
  | zero =>
    intro a f _ _ hok _
    simp only [Nat.add_zero] at hok
    simp [retryGo, hok]
  | succ j ih =>
    intro a f hjf hfail hok ham
    obtain ⟨f2, rfl⟩ : ∃ f2, f = f2 + 1 := ⟨f - 1, by omega⟩
    have h0 : func a = Except.error (msgs a) := by simpa using hfail 0 (by omega)
    have hlt : a < m := by omega
    have hrec := ih (a + 1) f2 (by omega)
      (fun i hi => by
        have hshift := hfail (i + 1) (by omega)
        have harith : a + (i + 1) = a + 1 + i := by omega
        rwa [harith] at hshift)
      (by
        have harith : a + (j + 1) = a + 1 + j := by omega
        rwa [harith] at hok)
      (by omega)
    have key : retryGo func m d b p a (f2 + 1 + 1) =
        ((retryGo func m d b p (a + 1) (f2 + 1)).1,
          (retryGo func m d b p (a + 1) (f2 + 1)).2.1 + 1,
          d * b ^ a :: (retryGo func m d b p (a + 1) (f2 + 1)).2.2) := by
      rw [retryGo_succ, h0]
      simp [hlt]
    rw [key, hrec]
    simp [List.range'_succ]

/-- `retry_async` on an operation failing every attempt, for non-negative
`max_retries`. -/
lemma retry_async_allFail {α : Type} (func : Nat → Except String α) (msgs : Nat → String)
    (h : ∀ i, func i = Except.error (msgs i)) (max_retries : Nat) (d b : ℚ) (p : String) :
    retry_async func (max_retries : Int) d b p =
      ⟨some (none, some ⟨p, msgs max_retries, max_retries⟩), max_retries + 1,
        (List.range max_retries).map (fun i => d * b ^ i)⟩ := by
  have h1 : ((max_retries : Int) + 1).toNat = max_retries + 1 := by omega
  have h2 : (max_retries : Int).toNat = max_retries := by omega
  rw [retry_async, h1, h2, if_neg (by omega)]
  rw [retryGo_allFail func msgs h max_retries d b p max_retries 0 (by omega)]
  rw [List.range_eq_range']

/-! ## Claims C4, C5, C10: the retry wrapper -/

/-- C4: for every operation that raises on every one of its
`max_retries + 1` attempts, `retry_async` returns an absent result
together with an Error Record whose phase is the given phase name, whose
message is the text of the last exception, and whose `retry_count` equals
`max_retries`; the wrapper itself never raises — it is a total function
of the per-attempt outcomes, every exception being caught and converted
into this Error Record. -/
theorem c4_retry_exhaustion {α : Type} (func : Nat → Except String α) (msgs : Nat → String)
    (h : ∀ i, func i = Except.error (msgs i)) (max_retries : Nat) (d b : ℚ) (p : String) :
    retry_async func (max_retries : Int) d b p =
      ⟨some (none, some ⟨p, msgs max_retries, max_retries⟩), max_retries + 1,
        (List.range max_retries).map (fun i => d * b ^ i)⟩ :=
  retry_async_allFail func msgs h max_retries d b p

/-- Witness for C4: an operation failing with `"boom"` on every attempt,
`max_retries = 2`: three invocations, waits `[1, 2]`, error
`⟨"p", "boom", 2⟩`. -/
theorem c4_witness :
    retry_async (fun _ => (Except.error "boom" : Except String Nat)) ((2 : Nat) : Int) 1 2 "p" =
      ⟨some (none, some ⟨"p", "boom", 2⟩), 3, [1, 2]⟩ := by
  rw [c4_retry_exhaustion (fun _ => (Except.error "boom" : Except String Nat))
    (fun _ => "boom") (fun _ => rfl) 2 1 2 "p"]
  norm_num [List.range_succ]

/-- C5: for every operation that raises on exactly its first `k` attempts
and succeeds on attempt `k` (zero-indexed, `k < max_retries`),
`retry_async` invokes the operation exactly `k + 1` times, returns the
success with an absent error, and performs exactly the waits
`delay * backoff_factor ^ 0, …, delay * backoff_factor ^ (k - 1)` between
consecutive attempts. -/
theorem c5_retry_exactness {α : Type} (func : Nat → Except String α) (msgs : Nat → String)
    (v : α) (k max_retries : Nat) (d b : ℚ) (p : String)
    (hk : k < max_retries)
    (hfail : ∀ i, i < k → func i = Except.error (msgs i))
    (hok : func k = Except.ok v) :
    retry_async func (max_retries : Int) d b p =
      ⟨some (some v, none), k + 1, (List.range k).map (fun i => d * b ^ i)⟩ := by
  have h1 : ((max_retries : Int) + 1).toNat = max_retries + 1 := by omega
  have h2 : (max_retries : Int).toNat = max_retries := by omega
  rw [retry_async, h1, h2, if_neg (by omega)]
  rw [retryGo_eventualOk func msgs v max_retries d b p k 0 max_retries (by omega)
    (fun i hi => by simpa using hfail i hi) (by simpa using hok) (by omega)]
  rw [List.range_eq_range']

/-- Witness for C5: an operation failing once then succeeding with `7`,
`max_retries = 2`: two invocations, the single wait `[1]`, result `7`. -/
theorem c5_witness :
    retry_async (fun n => if n = 0 then (Except.error "e0" : Except String Nat) else Except.ok 7)
      ((2 : Nat) : Int) 1 2 "p" =
      ⟨some (some 7, none), 2, [1]⟩ := by
  rw [c5_retry_exactness
    (fun n => if n = 0 then (Except.error "e0" : Except String Nat) else Except.ok 7)
    (fun _ => "e0") 7 1 2 1 2 "p" (by norm_num)
    (fun i hi => by
      have hi0 : i = 0 := by omega
      subst hi0
      rfl)
    rfl]
  norm_num [List.range_succ]

/-- C10: the `(result, error)` tuple contract of `retry_async` holds only
for `max_retries ≥ 0`: for every negative `max_retries` the
`for attempt in range(max_retries + 1)` loop body never executes — the
operation is never invoked, no wait is performed — and the function
returns the bare `None` (`ret = none`), which is not a tuple, so a caller
unpacking `result, error = …` fails. -/
theorem c10_negative_max_retries {α : Type} (func : Nat → Except String α)
    (max_retries : Int) (d b : ℚ) (p : String) (hm : max_retries < 0) :
    retry_async func max_retries d b p = ⟨none, 0, []⟩ := by
  have h0 : (max_retries + 1).toNat = 0 := by omega
  simp [retry_async, h0]

/-- Witness for C10 at `max_retries = -1`. -/
theorem c10_witness :
    retry_async (fun _ => (Except.ok 0 : Except String Nat)) (-1) 1 2 "p" = ⟨none, 0, []⟩ :=
  c10_negative_max_retries (fun _ => (Except.ok 0 : Except String Nat)) (-1) 1 2 "p" (by norm_num)

/-! ## Claim C1: re-running the engine on a fully complete record -/

/-- C1 counterexample: on the fully complete record `sAllComplete` the
engine is not terminal — `InitializeNode` dispatches to
`CompileOutputNode`, which executes, performs one `save_state`
(mutating the record's timestamp, so the persisted state changes), and
the run does not return the stored final output but a freshly compiled
one; in particular "no phase executor invoked, no state mutation or
save" is false. -/
theorem c1_counterexample :
    (runPipeline sAllComplete).executed = [Node.compileOutput] ∧
    (runPipeline sAllComplete).saves = 1 ∧
    (runPipeline sAllComplete).finalState ≠ sAllComplete ∧
    ¬ ((runPipeline sAllComplete).saves = 0 ∧ (runPipeline sAllComplete).executed = []) := by
  decide

/-- C1 amended: for every record whose phases are all `complete`, the
engine skips the first three phase executors but re-executes the
output-compilation executor: exactly that one node runs, exactly one save
is performed, the completion statuses are unchanged, `final_output_path`
is rewritten to the deterministic formula, and the returned output is the
freshly compiled stub output (the empty dict), not the stored one. -/
theorem c1_amended (s : State)
    (h1 : s.completion_status.process_extraction = Status.complete)
    (h2 : s.completion_status.process_summarization = Status.complete)
    (h3 : s.completion_status.info_extraction = Status.complete)
    (h4 : s.completion_status.output_compilation = Status.complete) :
    (runPipeline s).executed = [Node.compileOutput] ∧
    (runPipeline s).saves = 1 ∧
    (runPipeline s).finalOutput = [] ∧
    (runPipeline s).finalState.completion_status = s.completion_status ∧
    (runPipeline s).finalState.final_output_path =
      some ("output/" ++ s.channel_id ++ "_" ++ s.video_id ++ "_analysis.json") := by
  have hnode : initNextNode s = Node.compileOutput := by
    simp [initNextNode, h1, h2, h3]
  refine ⟨?_, ?_, ?_, ?_, ?_⟩ <;>
    simp [runPipeline, hnode, runCompileOutput, stepCompileOutput, save_state]
  rw [← h4]

/-- Witness for C1 amended at the concrete record `sAllComplete`. -/
theorem c1_amended_witness :
    (runPipeline sAllComplete).executed = [Node.compileOutput] ∧
    (runPipeline sAllComplete).saves = 1 ∧
    (runPipeline sAllComplete).finalOutput = [] ∧
    (runPipeline sAllComplete).finalState.completion_status = sAllComplete.completion_status ∧
    (runPipeline sAllComplete).finalState.final_output_path =
      some ("output/" ++ sAllComplete.channel_id ++ "_" ++ sAllComplete.video_id ++
        "_analysis.json") :=
  c1_amended sAllComplete rfl rfl rfl rfl

/-! ## Claim C2: monotonicity of `complete` statuses -/

/-- C2 counterexample: `add_error` applied to a state whose matching
phase is `complete` does change that phase's status — it unconditionally
regresses it to `failed`. -/
theorem c2_counterexample :
    sAllComplete.completion_status.process_extraction = Status.complete ∧
    (add_error sAllComplete ⟨"process_extraction", "boom", 0⟩).completion_status.process_extraction
      = Status.failed ∧
    ¬ (add_error sAllComplete
        ⟨"process_extraction", "boom", 0⟩).completion_status.process_extraction
      = Status.complete := by
  decide

/-- C2 amended: the phase executors only ever assign `complete`, so every
`complete` status is preserved by each of them; `add_error`, however,
unconditionally sets the status of the phase named in its Error Record to
`failed` — even if that phase was `complete` — while leaving the statuses
of the other phases unchanged and appending the error to the
(initialized-if-absent) error list. -/
theorem c2_amended :
    preservesComplete stepExtractProcesses ∧
    preservesComplete stepSummarizeProcesses ∧
    preservesComplete stepExtractInfo ∧
    preservesComplete stepCompileOutput ∧
    ∀ (s : State) (e : Error),
      (add_error s e).completion_status.process_extraction =
        (if e.phase = "process_extraction" then Status.failed
         else s.completion_status.process_extraction) ∧
      (add_error s e).completion_status.process_summarization =
        (if e.phase = "process_summarization" then Status.failed
         else s.completion_status.process_summarization) ∧
      (add_error s e).completion_status.info_extraction =
        (if e.phase = "info_extraction" then Status.failed
         else s.completion_status.info_extraction) ∧
      (add_error s e).completion_status.output_compilation =
        (if e.phase = "output_compilation" then Status.failed
         else s.completion_status.output_compilation) ∧
      (add_error s e).interim_errors = some (s.interim_errors.getD [] ++ [e]) := by
  refine ⟨?_, ?_, ?_, ?_, ?_⟩
  · intro s
    refine ⟨fun h => ?_, fun h => ?_, fun h => ?_, fun h => ?_⟩ <;>
      simp [stepExtractProcesses, save_state, h]
  · intro s
    refine ⟨fun h => ?_, fun h => ?_, fun h => ?_, fun h => ?_⟩ <;>
      simp [stepSummarizeProcesses, save_state, h]
  · intro s
    refine ⟨fun h => ?_, fun h => ?_, fun h => ?_, fun h => ?_⟩ <;>
      simp [stepExtractInfo, save_state, h]
  · intro s
    refine ⟨fun h => ?_, fun h => ?_, fun h => ?_, fun h => ?_⟩ <;>
      simp [stepCompileOutput, save_state, h]
  · intro s e
    simp only [add_error, save_state]
    split_ifs with hpe hps hie hoc <;> simp_all

/-- Witness for C2 amended: an executor preserving a `complete` status
and `add_error` regressing the matching `complete` phase to `failed`, on
the concrete record `sAllComplete`. -/
theorem c2_amended_witness :
    (stepExtractInfo sAllComplete).completion_status.process_extraction = Status.complete ∧
    (add_error sAllComplete ⟨"info_extraction", "m", 1⟩).completion_status.info_extraction =
      Status.failed := by
  constructor
  · exact (c2_amended.2.2.1 sAllComplete).1 rfl
  · have h := (c2_amended.2.2.2.2 sAllComplete ⟨"info_extraction", "m", 1⟩).2.2.1
    simpa using h

/-! ## Claim C9: the composite key to state-file path mapping -/

/-- C9: `get_state_path` is deterministic — it is a pure function of the
output directory and the two identifiers — but not injective: the two
distinct pairs `("a_b", "c")` and `("a", "b_c")` map to the same path
`"state/a_b_c_state.json"` under the default `output_dir = "state"`, so
two distinct items share one persisted state file. -/
theorem c9_state_path_collision :
    get_state_path "state" "a_b" "c" = get_state_path "state" "a" "b_c" ∧
    get_state_path "state" "a_b" "c" = "state/a_b_c_state.json" ∧
    (("a_b", "c") : String × String) ≠ ("a", "b_c") := by
  refine ⟨rfl, rfl, by decide⟩

/-! ## Claim C8: deterministic transcript truncation -/

/-- C8: for every transcript whose concatenated segment texts exceed
16000 characters, the truncation yields exactly the first 16000
characters of the concatenation followed by the `"..."` marker;
concatenations of at most 16000 characters are left unchanged.
Determinism (byte-for-byte identity across runs) holds because
`truncateTranscript` is a pure function of the concatenation. -/
theorem c8_truncation (texts : List String) :
    (16000 < pyLen (String.intercalate " " texts) →
      truncateTranscript (String.intercalate " " texts) =
        pyTake (String.intercalate " " texts) 16000 ++ "...") ∧
    (pyLen (String.intercalate " " texts) ≤ 16000 →
      truncateTranscript (String.intercalate " " texts) = String.intercalate " " texts) := by
  constructor
  · intro h
    simp [truncateTranscript, h]
  · intro h
    have hng : ¬ pyLen (String.intercalate " " texts) > 16000 := by omega
    simp [truncateTranscript, hng]

/-- Witness for C8 at a concrete 20000-character concatenation. -/
theorem c8_witness :
    16000 < pyLen (String.intercalate " " [bigTranscript]) ∧
    truncateTranscript (String.intercalate " " [bigTranscript]) =
      pyTake (String.intercalate " " [bigTranscript]) 16000 ++ "..." := by
  have hlen : pyLen (String.intercalate " " [bigTranscript]) = 20000 := by
    show (List.replicate 20000 'a').length = 20000
    rw [List.length_replicate]
  exact ⟨by omega, (c8_truncation [bigTranscript]).1 (by omega)⟩

/-! ## Lemmas about the tag merge -/

/-- Unfolding of `mergeTags` on a cons of keywords. -/
lemma mergeTags_cons (xs : List String) (k : String) (ks : List String) :
    mergeTags xs (k :: ks) =
      if k ∈ xs then mergeTags xs ks else mergeTags (xs ++ [k]) ks := by
  by_cases h : k ∈ xs
  · simp [mergeTags, h]
  · simp [mergeTags, h]

/-- Membership in the merge: exactly the existing tags and the keywords. -/
lemma mem_mergeTags (t : String) :
    ∀ (ks xs : List String), t ∈ mergeTags xs ks ↔ t ∈ xs ∨ t ∈ ks := by
  intro ks
  induction ks with
  | nil =>
    intro xs
    simp [mergeTags]
  | cons k ks ih =>
    intro xs
    rw [mergeTags_cons]
    by_cases h : k ∈ xs
    · rw [if_pos h, ih, List.mem_cons]
      constructor
      · rintro (hx | hks)
        · exact Or.inl hx
        · exact Or.inr (Or.inr hks)
      · rintro (hx | rfl | hks)
        · exact Or.inl hx
        · exact Or.inl h
        · exact Or.inr hks
    · rw [if_neg h, ih]
      simp only [List.mem_append, List.mem_singleton, List.mem_cons]
      tauto

/-- Merging keywords that are all already present changes nothing. -/
lemma mergeTags_noop :
    ∀ (ks acc : List String), (∀ k ∈ ks, k ∈ acc) → mergeTags acc ks = acc := by
  intro ks
  induction ks with
  | nil =>
    intro acc _
    rfl
  | cons k ks ih =>
    intro acc hall
    rw [mergeTags_cons, if_pos (hall k (by simp))]
    exact ih acc (fun x hx => hall x (by simp [hx]))

/-- The existing tags are an unchanged prefix of the merge. -/
lemma mergeTags_isPrefix :
    ∀ (ks xs : List String), List.IsPrefix xs (mergeTags xs ks) := by
  intro ks
  induction ks with
  | nil =>
    intro xs
    exact List.prefix_refl xs
  | cons k ks ih =>
    intro xs
    rw [mergeTags_cons]
    by_cases h : k ∈ xs
    · rw [if_pos h]
      exact ih xs
    · rw [if_neg h]
      exact List.IsPrefix.trans (List.prefix_append xs [k]) (ih (xs ++ [k]))

/-! ## Claim C6: the tag merge -/

/-- C6: the tag merge of the successful-parse path preserves the existing
tags as an unchanged prefix (hence their original order), appends only
new tags, is idempotent — re-merging the same keyword list is a no-op —
and contains exactly the union of both lists; concretely, merging
`["A","B"]` into `["A"]` yields `["A","B"]` and merging `["A","B"]` again
yields the same `["A","B"]` with no duplicates. -/
theorem c6_tag_merge (xs ks : List String) :
    List.IsPrefix xs (mergeTags xs ks) ∧
    mergeTags (mergeTags xs ks) ks = mergeTags xs ks ∧
    (∀ t, t ∈ mergeTags xs ks ↔ t ∈ xs ∨ t ∈ ks) ∧
    mergeTags ["A"] ["A", "B"] = ["A", "B"] ∧
    mergeTags ["A", "B"] ["A", "B"] = ["A", "B"] := by
  refine ⟨mergeTags_isPrefix ks xs, ?_, fun t => mem_mergeTags t ks xs, by decide, by decide⟩
  exact mergeTags_noop ks (mergeTags xs ks) (fun k hk => (mem_mergeTags k ks xs).2 (Or.inr hk))

/-- Witness for C6 at the concrete lists of the claim. -/
theorem c6_witness :
    mergeTags ["A"] ["A", "B"] = ["A", "B"] ∧
    mergeTags ["A", "B"] ["A", "B"] = ["A", "B"] :=
  ⟨(c6_tag_merge ["A"] ["A", "B"]).2.2.2.1, (c6_tag_merge ["A"] ["A", "B"]).2.2.2.2⟩

/-! ## Claim C3: the total-failure contract of `extract_info` -/

/-- C3 counterexample: `extract_info` does not return "tags equal to the
original tags" on the unparseable-content path — `list(set(...))`
collapses duplicates, so original tags `["A", "A"]` with content
`"not json at all"` come back as `["A"]` (a set cannot contain the
duplicate whatever its iteration order); and on the retry-exhaustion path
the error field equals the exception text, which is empty — not
non-empty — for an exception whose text is empty. -/
theorem c3_counterexample :
    (extract_info [⟨"intro"⟩] ⟨"t", "d", ["A", "A"]⟩
      (fun _ => Except.ok "not json at all")).tags = ["A"] ∧
    (extract_info [⟨"intro"⟩] ⟨"t", "d", ["A", "A"]⟩
      (fun _ => Except.ok "not json at all")).tags ≠ ["A", "A"] ∧
    (extract_info [⟨"intro"⟩] ⟨"t", "d", ["A", "A"]⟩
      (fun _ => Except.ok "not json at all")).software = JValue.jarr [] ∧
    (extract_info [⟨"intro"⟩] ⟨"t", "d", ["A"]⟩ (fun _ => Except.error "")).error = some "" := by
  refine ⟨rfl, by decide, rfl, rfl⟩

/-- C3 amended: `extract_info` is total (never raises) and always returns
a well-formed result.  When the inference call exhausts its retries it
returns an empty software list, exactly the original tags, and an error
field equal to the last exception's text (non-empty exactly when that
text is).  When the response content parses as no JSON value (and has no
` ```json ` fence) it returns an empty software list, a non-empty error
field, and as tags the distinct elements of the original tags together
with the heuristically scanned keywords, in set order — duplicates of the
original list are collapsed and its order is not preserved in general. -/
theorem c3_amended (transcript : List TranscriptItem) (meta : VideoMeta)
    (msgs : Nat → String) (content : String)
    (hfence : containsJsonFence content = false)
    (hbad : jsonLoads content = none) :
    extract_info transcript meta (fun i => Except.error (msgs i)) =
      ⟨JValue.jarr [], meta.tags, some (msgs 2)⟩ ∧
    extract_info transcript meta (fun _ => Except.ok content) =
      ⟨JValue.jarr [], pySetList (meta.tags ++ scanKeywords content),
        some jsonDecodeErrMsg⟩ ∧
    jsonDecodeErrMsg ≠ "" := by
  refine ⟨?_, ?_, by decide⟩
  · have hr := retry_async_allFail (fun i => (Except.error (msgs i) : Except String String))
      msgs (fun _ => rfl) 2 1 2 "info_extraction"
    have hcast : (((2 : Nat) : Int)) = (2 : Int) := rfl
    rw [hcast] at hr
    simp only [extract_info]
    rw [hr]
  · have hr2 : retry_async (fun _ => (Except.ok content : Except String String))
        2 1 2 "info_extraction" = ⟨some (some content, none), 1, []⟩ := rfl
    simp only [extract_info]
    rw [hr2]
    simp only [parseResponse, hfence, Bool.false_eq_true, if_false, hbad]

/-- Witness for C3 amended at empty exception text, original tags
`["A", "A"]` and content `"not json at all"`. -/
theorem c3_amended_witness :
    extract_info [⟨"intro"⟩] ⟨"t", "d", ["A", "A"]⟩ (fun _ => Except.error "") =
      ⟨JValue.jarr [], ["A", "A"], some ""⟩ ∧
    extract_info [⟨"intro"⟩] ⟨"t", "d", ["A", "A"]⟩ (fun _ => Except.ok "not json at all") =
      ⟨JValue.jarr [], pySetList (["A", "A"] ++ scanKeywords "not json at all"),
        some jsonDecodeErrMsg⟩ ∧
    jsonDecodeErrMsg ≠ "" := by
  have h := c3_amended [⟨"intro"⟩] ⟨"t", "d", ["A", "A"]⟩ (fun _ => "") "not json at all"
    rfl rfl
  exact ⟨h.1, h.2.1, h.2.2⟩

/-! ## Lemmas about the cooperative scheduler -/

/-- A quantum emits only plain step events of its own task. -/
lemma quantum_all_steps (tid : Bool) :
    ∀ l : List AStep, ∀ e ∈ (quantum tid l).1, ∃ s, e = Ev.step tid s := by
  intro l
  induction l with
  | nil =>
    intro e he
    simp [quantum] at he
  | cons st r ih =>
    intro e he
    cases st with
    | work =>
      simp only [quantum, List.mem_cons] at he
      rcases he with he | he
      · exact ⟨AStep.work, he⟩
      · exact ih e he
    | wait b d =>
      simp [quantum] at he
    | yieldPt =>
      simp only [quantum, List.mem_cons, List.not_mem_nil, or_false] at he
      exact ⟨AStep.yieldPt, he⟩

/-- The wait scanner passes over plain step events. -/
lemma otherDuring_append_steps :
    ∀ (xs rest : List Ev), (∀ e ∈ xs, ∃ t s, e = Ev.step t s) →
      otherDuringFirstWait (xs ++ rest) = otherDuringFirstWait rest := by
  intro xs
  induction xs with
  | nil =>
    intro rest _
    rfl
  | cons e xs ih =>
    intro rest hall
    obtain ⟨t, s, rfl⟩ := hall e (by simp)
    calc otherDuringFirstWait (Ev.step t s :: (xs ++ rest))
        = otherDuringFirstWait (xs ++ rest) := rfl
      _ = otherDuringFirstWait rest := ih rest (fun e he => hall e (by simp [he]))

/-- A quantum leaves a trace without non-blocking waits without
non-blocking waits. -/
lemma quantum_onlyBlocking (tid : Bool) :
    ∀ l : List AStep, onlyBlockingWaits l → onlyBlockingWaits (quantum tid l).2 := by
  intro l
  induction l with
  | nil =>
    intro _ d hd
    simp [quantum] at hd
  | cons st r ih =>
    intro h
    cases st with
    | work =>
      have hr : onlyBlockingWaits r := fun d hd => h d (by simp [hd])
      intro d hd
      exact (ih hr) d (by simpa [quantum] using hd)
    | yieldPt =>
      intro d hd
      have hr : AStep.wait false d ∈ r := by simpa [quantum] using hd
      exact h d (by simp [hr])
    | wait b dd =>
      intro d hd
      have hmem : AStep.wait false d ∈ AStep.wait b dd :: r := by simpa [quantum] using hd
      exact h d hmem

/-- Every wait of the source's retry trace is blocking: the source's only
wait primitive is `time.sleep`. -/
lemma retryTrace_onlyBlocking (fails : Nat → Bool) (mr : Nat) (d bf : ℚ) :
    ∀ afuel attempt, onlyBlockingWaits (retryTrace true fails mr d bf attempt afuel) := by
  intro afuel
  induction afuel with
  | zero =>
    intro attempt dd hd
    simp [retryTrace] at hd
  | succ afuel ih =>
    intro attempt dd hd
    have hunf : retryTrace true fails mr d bf attempt (afuel + 1) =
        AStep.yieldPt ::
          (if fails attempt then
            (if attempt < mr then
              AStep.wait true (d * bf ^ attempt) ::
                retryTrace true fails mr d bf (attempt + 1) afuel
            else [])
          else []) := rfl
    rw [hunf] at hd
    simp only [List.mem_cons] at hd
    rcases hd with h1 | h2
    · simp at h1
    · by_cases hf : fails attempt
      · rw [if_pos hf] at h2
        by_cases hlt : attempt < mr
        · rw [if_pos hlt] at h2
          simp only [List.mem_cons] at h2
          rcases h2 with h3 | h4
          · simp at h3
          · exact ih (attempt + 1) dd h4
        · rw [if_neg hlt] at h2
          simp at h2
      · rw [if_neg hf] at h2
        simp at h2

/-- In any cooperative schedule, a task whose every wait is blocking
never lets the other task make progress between the start and the end of
one of its waits. -/
lemma sched_noProgress_during_blocking :
    ∀ (sfuel : Nat) (a b : List AStep) (turn : Bool), onlyBlockingWaits a →
      otherDuringFirstWait (sched sfuel a b turn) = 0 := by
  intro sfuel
  induction sfuel with
  | zero =>
    intro a b turn _
    rfl
  | succ sfuel ih =>
    intro a b turn ha
    cases turn
    case false =>
      cases b with
      | nil => exact ih a [] true ha
      | cons st r =>
        cases st with
        | work => exact ih a r false ha
        | yieldPt => exact ih a r true ha
        | wait blocking dd =>
          cases blocking with
          | true => exact ih a r false ha
          | false =>
            show otherDuringFirstWait ((quantum true a).1 ++
              (Ev.waitEnd false :: sched sfuel (quantum true a).2 r false)) = 0
            rw [otherDuring_append_steps _ _ (fun e he => by
              obtain ⟨s, hs⟩ := quantum_all_steps true a e he
              exact ⟨true, s, hs⟩)]
            show otherDuringFirstWait (sched sfuel (quantum true a).2 r false) = 0
            exact ih _ r false (quantum_onlyBlocking true a ha)
    case true =>
      cases a with
      | nil => exact ih [] b false ha
      | cons st r =>
        have hr : onlyBlockingWaits r := fun d hd => ha d (by simp [hd])
        cases st with
        | work => exact ih r b true hr
        | yieldPt => exact ih r b false hr
        | wait blocking dd =>
          cases blocking with
          | false => exact absurd (by simp) (ha dd)
          | true => rfl

/-! ## Claim C7: the backoff wait and concurrent progress -/

/-- C7: evaluation of the code at the failing configuration.  The source
performs every backoff wait with `time.sleep` inside the async function,
so its trace is `retryTrace true …`; under the cooperative scheduler the
concurrently scheduled task makes zero progress during the wait — for
every operation, retry bound, backoff parameters, other task and
scheduling fuel.  Had the wait been a suspending one (`retryTrace
false …`, the spec's contract), the other task would progress during the
backoff, as the second conjunct shows on the concrete failing input:
`max_retries = 2`, `delay = 1`, `backoff_factor = 2`, operation failing
on attempt 0, run alongside `otherTask`. -/
theorem c7_blocking_backoff :
    (∀ (fails : Nat → Bool) (mr : Nat) (d bf : ℚ) (attempt afuel sfuel : Nat)
        (b : List AStep) (turn : Bool),
      otherDuringFirstWait
        (sched sfuel (retryTrace true fails mr d bf attempt afuel) b turn) = 0) ∧
    0 < otherDuringFirstWait
        (sched 20 (retryTrace false (fun n => decide (n = 0)) 2 1 2 0 3) otherTask true) := by
  constructor
  · intro fails mr d bf attempt afuel sfuel b turn
    exact sched_noProgress_during_blocking sfuel _ b turn
      (retryTrace_onlyBlocking fails mr d bf afuel attempt)
  · decide

end YTA
